import Mathlib

/-!
Verification of the AST-based rule engine of the pre-commit-check repository
(`commit-check-core.js`) against its natural-language specification.

Source text is modelled as `List Char` (named `Text` below); JavaScript string
primitives (`includes`, `startsWith`, `split`, case-insensitive regex tests of
escaped literals) are translated into executable character-list functions.
Babel AST nodes are modelled by a mutually inductive family restricted to the
node kinds the checked functions inspect.
-/

set_option maxHeartbeats 1000000

/-- Source text, character by character. -/
abbrev Text := List Char

/-- The single-quote character. -/
def chQuote : Char := Char.ofNat 39

/-- The double-quote character. -/
def chDQuote : Char := Char.ofNat 34

/-- The backtick character. -/
def chBtick : Char := Char.ofNat 96

/-- The backslash character. -/
def chBslash : Char := Char.ofNat 92

/-- Lower-case a text (JS `toLowerCase`, restricted to the characters used). -/
def lowerText (t : Text) : Text := t.map Char.toLower

/-- Does `hay` start with `needle` (JS `startsWith`)? -/
def startsWithT (hay needle : Text) : Bool :=
  match needle, hay with
  | [], _ => true
  | _ :: _, [] => false
  | a :: as, b :: bs => a == b && startsWithT bs as

/-- Does `hay` contain `needle` as a contiguous substring (JS `includes`)? -/
def hasSub (hay needle : Text) : Bool :=
  match hay with
  | [] => needle.isEmpty
  | _ :: t => startsWithT hay needle || hasSub t needle

/-- Case-insensitive substring test: the semantics of
`new RegExp(escapedLiteral, 'i').test(hay)`. -/
def hasSubCI (hay needle : Text) : Bool :=
  hasSub (lowerText hay) (lowerText needle)

/-- Does `hay` end with `needle` (JS `endsWith`)? -/
def endsWithT (hay needle : Text) : Bool :=
  startsWithT hay.reverse needle.reverse

theorem startsWithT_iff (hay needle : Text) :
    startsWithT hay needle = true ↔ needle <+: hay := by
  induction needle generalizing hay with
  | nil => simp [startsWithT]
  | cons a as ih =>
    cases hay with
    | nil => simp [startsWithT]
    | cons b bs =>
      simp only [startsWithT, Bool.and_eq_true, beq_iff_eq]
      rw [ih, List.cons_prefix_cons, eq_comm]

theorem hasSub_iff (hay needle : Text) :
    hasSub hay needle = true ↔ needle <:+: hay := by
  induction hay with
  | nil =>
    simp only [hasSub, List.isEmpty_iff]
    constructor
    · rintro rfl; exact List.infix_rfl
    · intro h; exact List.eq_nil_of_infix_nil h
  | cons b bs ih =>
    simp only [hasSub, Bool.or_eq_true, startsWithT_iff, ih]
    constructor
    · rintro (h | h)
      · exact h.isInfix
      · exact h.trans (List.suffix_cons b bs).isInfix
    · intro h
      rcases (List.infix_cons_iff).mp h with h | h
      · exact Or.inl h
      · exact Or.inr h

/-- Substring containment is transitive (via `List.IsInfix`). -/
theorem hasSub_trans {a b c : Text} (h1 : hasSub a b = true) (h2 : hasSub b c = true) :
    hasSub a c = true := by
  rw [hasSub_iff] at *
  exact h2.trans h1

/-- If `hay` lacks `t`, it also lacks every text `e` that contains `t`. -/
theorem hasSub_absent_of_super {a e t : Text} (h1 : hasSub a t = false)
    (h2 : hasSub e t = true) : hasSub a e = false := by
  cases h : hasSub a e with
  | false => rfl
  | true => exact absurd (hasSub_trans h h2) (by simp [h1])

/-- Character scanner behind `ASTUtils.removeCommentsAndStrings`
(commit-check-core.js lines 168-238).  State flags mirror the JS booleans
`inSingleQuote`, `inDoubleQuote`, `inTemplate`, `inSingleComment`,
`inMultiComment`; `prev` is the previously read character (`none` at the
start, matching the JS empty string).  The `/*` and `*/` branches emit one
space while advancing two characters, exactly as the JS `i += 2` does.
The one-character clause specialises the JS loop body to the case where
`nextChar` is empty, under which the three comment-delimiter branches
(which require a next character) cannot fire. -/
def rcGo (sq dq tp sc mc : Bool) (prev : Option Char) : Text → Text
  | [] => []
  | [c] =>
    if sc = false ∧ mc = false ∧ c = chQuote ∧ prev ≠ some chBslash ∧ dq = false ∧ tp = false then
      [' ']
    else if sc = false ∧ mc = false ∧ c = chDQuote ∧ prev ≠ some chBslash ∧ sq = false ∧ tp = false then
      [' ']
    else if sc = false ∧ mc = false ∧ c = chBtick ∧ prev ≠ some chBslash ∧ sq = false ∧ dq = false then
      [' ']
    else if sq = false ∧ dq = false ∧ tp = false ∧ c = '\n' ∧ sc = true then
      ['\n']
    else if sc = true ∨ mc = true ∨ sq = true ∨ dq = true ∨ tp = true then
      [' ']
    else
      [c]
  | c :: c2 :: rest =>
    if sc = false ∧ mc = false ∧ c = chQuote ∧ prev ≠ some chBslash ∧ dq = false ∧ tp = false then
      ' ' :: rcGo (!sq) dq tp sc mc (some c) (c2 :: rest)
    else if sc = false ∧ mc = false ∧ c = chDQuote ∧ prev ≠ some chBslash ∧ sq = false ∧ tp = false then
      ' ' :: rcGo sq (!dq) tp sc mc (some c) (c2 :: rest)
    else if sc = false ∧ mc = false ∧ c = chBtick ∧ prev ≠ some chBslash ∧ sq = false ∧ dq = false then
      ' ' :: rcGo sq dq (!tp) sc mc (some c) (c2 :: rest)
    else if sq = false ∧ dq = false ∧ tp = false ∧ c = '/' ∧ c2 = '/' ∧ mc = false then
      ' ' :: rcGo sq dq tp true mc (some c) (c2 :: rest)
    else if sq = false ∧ dq = false ∧ tp = false ∧ c = '/' ∧ c2 = '*' ∧ sc = false then
      ' ' :: rcGo sq dq tp sc true (some c2) rest
    else if sq = false ∧ dq = false ∧ tp = false ∧ c = '*' ∧ c2 = '/' ∧ mc = true then
      ' ' :: rcGo sq dq tp sc false (some c2) rest
    else if sq = false ∧ dq = false ∧ tp = false ∧ c = '\n' ∧ sc = true then
      '\n' :: rcGo sq dq tp false mc (some c) (c2 :: rest)
    else if sc = true ∨ mc = true ∨ sq = true ∨ dq = true ∨ tp = true then
      ' ' :: rcGo sq dq tp sc mc (some c) (c2 :: rest)
    else
      c :: rcGo sq dq tp sc mc (some c) (c2 :: rest)

/-- `ASTUtils.removeCommentsAndStrings`: blank out comments and string
contents of a piece of source text. -/
def removeCommentsAndStrings (code : Text) : Text :=
  rcGo false false false false false none code

/-- Text containing no adjacent block-comment delimiter pair. -/
def noBlockDelim : Text → Bool
  | [] => true
  | [_] => true
  | a :: b :: rest =>
    !((a == '/' && b == '*') || (a == '*' && b == '/')) && noBlockDelim (b :: rest)

theorem rcGo_length_le (sq dq tp sc mc : Bool) (prev : Option Char) (l : Text) :
    (rcGo sq dq tp sc mc prev l).length ≤ l.length := by
  induction sq, dq, tp, sc, mc, prev, l using rcGo.induct <;>
    simp only [rcGo] <;> (try split_ifs) <;> simp_all +decide <;> omega

theorem rcGo_length_eq (sq dq tp sc mc : Bool) (prev : Option Char) (l : Text)
    (h : noBlockDelim l = true) :
    (rcGo sq dq tp sc mc prev l).length = l.length := by
  induction sq, dq, tp, sc, mc, prev, l using rcGo.induct <;>
    simp only [rcGo] <;> (try split_ifs) <;> simp_all +decide [noBlockDelim] <;> omega

/-- C3 counterexample: on the input `a/*␊*/b` the stripper returns `a   b`,
which is two characters shorter than the input (each block-comment delimiter
consumed two characters while emitting one space) and has lost the newline
that was inside the block comment, refuting both the same-length and the
newline-preservation parts of the claim. -/
theorem c3_counterexample :
    removeCommentsAndStrings "a/*\n*/b".data = "a   b".data ∧
    ("a/*\n*/b".data).length = 7 ∧
    (removeCommentsAndStrings "a/*\n*/b".data).length = 5 ∧
    ("a/*\n*/b".data).count '\n' = 1 ∧
    (removeCommentsAndStrings "a/*\n*/b".data).count '\n' = 0 := by
  decide

/-- C3 (amended): `ASTUtils.removeCommentsAndStrings` never lengthens its
input, and it returns a string of exactly the input's length whenever the
input contains no adjacent block-comment delimiter pair; with block-comment
delimiters present the output can be shorter, since the delimiter branches
emit one space for two consumed characters. -/
theorem c3_stripper_length :
    (∀ code : Text, (removeCommentsAndStrings code).length ≤ code.length) ∧
    (∀ code : Text, noBlockDelim code = true →
      (removeCommentsAndStrings code).length = code.length) :=
  ⟨fun code => rcGo_length_le false false false false false none code,
   fun code h => rcGo_length_eq false false false false false none code h⟩

/-- Witness for `c3_stripper_length` at a concrete delimiter-free input. -/
theorem c3_stripper_length_witness :
    (removeCommentsAndStrings "x = 1; // note\ny = 2;".data).length =
      ("x = 1; // note\ny = 2;".data).length :=
  c3_stripper_length.2 _ (by decide)

/-- The left-brace character. -/
def chLBrace : Char := Char.ofNat 123

/-- The right-brace character. -/
def chRBrace : Char := Char.ofNat 125

/-- Character class for JS regex `\w`. -/
def wordChar (c : Char) : Bool := c.isAlpha || c.isDigit || c == '_'

/-- Character class for JS regex `\s`. -/
def wsChar (c : Char) : Bool := c.isWhitespace

/-- Character class for JS regex `[^}]`. -/
def nonRBrace (c : Char) : Bool := c != chRBrace

/-- Character class for JS regex `[^>]`. -/
def nonGt (c : Char) : Bool := c != '>'

/-- Small regex fragment language covering exactly the constructs used by the
patterns of commit-check-core.js: case-insensitive literals, single
characters and greedy repetitions of a character class, word boundaries,
alternation and sequencing.  Matching is existential, which coincides with
JS `RegExp.test` semantics for these patterns. -/
inductive Rx where
  | eps
  | lit (s : Text)
  | one (p : Char → Bool)
  | star (p : Char → Bool)
  | plus (p : Char → Bool)
  | opt (p : Char → Bool)
  | wb
  | alt (r1 r2 : Rx)
  | seq (r1 r2 : Rx)

/-- Sequence a list of fragments. -/
def rseq (rs : List Rx) : Rx := rs.foldr Rx.seq Rx.eps

/-- Is position `i` of `text` a `\b` word boundary? -/
def isWordBoundaryAt (text : Text) (i : Nat) : Bool :=
  let before := if i = 0 then false else
    match text.get? (i - 1) with
    | some c => wordChar c
    | none => false
  let here := match text.get? i with
    | some c => wordChar c
    | none => false
  before != here

/-- Length of the maximal run of class-`p` characters in `l`. -/
def runLen (p : Char → Bool) : Text → Nat
  | [] => 0
  | c :: rest => if p c then runLen p rest + 1 else 0

/-- All positions at which fragment `r`, started at position `i` of `text`,
can stop.  Case-insensitive comparison matches the `'i'` flag carried by
every pattern that the source builds from escaped literals. -/
def rxEnds (text : Text) : Rx → Nat → List Nat
  | .eps, i => [i]
  | .lit s, i =>
    if startsWithT (lowerText (text.drop i)) (lowerText s) then [i + s.length] else []
  | .one p, i =>
    match text.get? i with
    | some c => if p c then [i + 1] else []
    | none => []
  | .star p, i => (List.range (runLen p (text.drop i) + 1)).map (i + ·)
  | .plus p, i => (List.range (runLen p (text.drop i))).map (i + 1 + ·)
  | .opt p, i =>
    i :: (match text.get? i with
          | some c => if p c then [i + 1] else []
          | none => [])
  | .wb, i => if isWordBoundaryAt text i then [i] else []
  | .alt r1 r2, i => rxEnds text r1 i ++ rxEnds text r2 i
  | .seq r1 r2, i => (rxEnds text r1 i).flatMap (rxEnds text r2)

/-- JS `pattern.test(text)`: does the fragment match anywhere in `text`? -/
def rxTest (text : Text) (r : Rx) : Bool :=
  (List.range (text.length + 1)).any (fun i => !(rxEnds text r i).isEmpty)

/-- Remainder of the text after the first `*/`, if any. -/
def afterBlockClose : Text → Option Text
  | [] => none
  | [_] => none
  | c :: c2 :: rest =>
    if c = '*' ∧ c2 = '/' then some rest else afterBlockClose (c2 :: rest)

/-- JS `text.replace(/\/\*[\s\S]*?\*\//g, '')`: drop every closed block
comment (lazy match: each `/*` is closed by the first following `*/`; an
unclosed `/*` is left in place).  The `inC` flag is the scanning state. -/
def rbcGo (inC : Bool) : Text → Text
  | [] => []
  | [c] => if inC then [] else [c]
  | c :: c2 :: rest =>
    if inC then
      if c = '*' ∧ c2 = '/' then rbcGo false rest
      else rbcGo true (c2 :: rest)
    else
      if c = '/' ∧ c2 = '*' ∧ (afterBlockClose rest).isSome then
        rbcGo true rest
      else
        c :: rbcGo false (c2 :: rest)

/-- Remove closed block comments from a text. -/
def removeBlockCommentsRx (t : Text) : Text := rbcGo false t

/-- Split a text at newlines (JS `split('\n')`). -/
def splitLinesT : Text → List Text
  | [] => [[]]
  | c :: rest =>
    let r := splitLinesT rest
    if c = '\n' then [] :: r
    else
      match r with
      | l :: ls => (c :: l) :: ls
      | [] => [[c]]

/-- Join lines with newlines (JS `join('\n')`). -/
def joinLinesT : List Text → Text
  | [] => []
  | [l] => l
  | l :: ls => l ++ '\n' :: joinLinesT ls

/-- Cut one line at its first `//` (JS `line.replace(/\/\/.*$/, '')`). -/
def stripLineComment : Text → Text
  | [] => []
  | [c] => [c]
  | c :: c2 :: rest =>
    if c = '/' ∧ c2 = '/' then [] else c :: stripLineComment (c2 :: rest)

/-- JS `text.replace(/\/\/.*$/gm, '')`: cut every line at its first `//`. -/
def removeLineCommentsRx (t : Text) : Text :=
  joinLinesT ((splitLinesT t).map stripLineComment)

/-- The two chained regex replaces the evaluators use to discard comments
before a text search (block comments first, then line comments). -/
def stripCommentsRegex (t : Text) : Text :=
  removeLineCommentsRx (removeBlockCommentsRx t)

example : stripCommentsRegex "a /* x */ b // c\nd".data = "a  b \nd".data := by decide

/-- Core of the loading-binding patterns: `[^}]*` then the (optionally
`\b`-delimited) loading name, then `[^}]*\}`. -/
def jsxBindCore (name : Text) (bounded : Bool) : List Rx :=
  [Rx.star nonRBrace] ++
    (if bounded then [Rx.wb, Rx.lit name, Rx.wb] else [Rx.lit name]) ++
    [Rx.star nonRBrace, Rx.lit "\x7d".data]

/-- One of the three destructure patterns of
`checkDeclareRequestLoadingUsage` (lines 3103-3106):
`kw\s*\{[^}]*\bNAME\b[^}]*\}\s*=\s*props\.(global|\w+)` with flag `i`. -/
def destructurePat (kw name : Text) : Rx :=
  rseq [.lit kw, .star wsChar, .lit "\x7b".data, .star nonRBrace, .wb, .lit name, .wb,
        .star nonRBrace, .lit "\x7d".data, .star wsChar, .lit "=".data, .star wsChar,
        .lit "props.".data, .alt (.lit "global".data) (.plus wordChar)]

/-- The seven markup-binding patterns of `checkDeclareRequestLoadingUsage`
(lines 3130-3138 and 3161-3169; the same list appears in both modes). -/
def loadingTemplatePatterns (name : Text) : List Rx :=
  [rseq ([Rx.lit "<Spin".data, Rx.star nonGt, Rx.lit "spinning=\x7b".data] ++ jsxBindCore name true),
   rseq ([Rx.lit "<Table".data, Rx.star nonGt, Rx.lit "loading=\x7b".data] ++ jsxBindCore name true),
   rseq ([Rx.lit "<Button".data, Rx.star nonGt, Rx.lit "loading=\x7b".data] ++ jsxBindCore name true),
   rseq ([Rx.lit "spinning=\x7b".data] ++ jsxBindCore name true),
   rseq ([Rx.lit "loading=\x7b".data] ++ jsxBindCore name true),
   rseq ([Rx.lit "spinning=\x7b".data] ++ jsxBindCore name false),
   rseq ([Rx.lit "loading=\x7b".data] ++ jsxBindCore name false)]

/-- Direct-use pattern `props\.(global|\w+)\.NAME` (line 3155). -/
def directPropsPat (name : Text) : Rx :=
  rseq [.lit "props.".data, .alt (.lit "global".data) (.plus wordChar), .lit ('.' :: name)]

/-- The three destructure patterns tested in order (const, let, var). -/
def destructureHit (name full : Text) : Bool :=
  ["const".data, "let".data, "var".data].any
    (fun kw => rxTest full (destructurePat kw name))

/-- `checkDeclareRequestLoadingUsage` (commit-check-core.js lines 3093-3188):
does the page use the loading flag resolved from a `declareRequest`
declaration?  With `requireJSXUsage = true` (rule 2) both a props
destructuring of the name and a markup binding in the comment-stripped text
are required; without it (rule 1) destructuring alone, direct `props.x.NAME`
use, a markup binding, or a braced JSX use of the bare name suffices.
Name escaping in the JS is the identity here because literals are matched
verbatim. -/
def checkDeclareRequestLoadingUsage (loadingName content template : Text)
    (requireJSXUsage : Bool) : Bool :=
  if loadingName.isEmpty then false
  else
    let fullContent := content ++ '\n' :: template
    let hasDestructure := destructureHit loadingName fullContent
    if requireJSXUsage then
      if !hasDestructure then false
      else
        (loadingTemplatePatterns loadingName).any
          (rxTest (stripCommentsRegex fullContent))
    else
      if hasDestructure then true
      else if rxTest fullContent (directPropsPat loadingName) then true
      else if (loadingTemplatePatterns loadingName).any (rxTest fullContent) then true
      else if rxTest fullContent (rseq [.wb, .lit loadingName, .wb]) then
        rxTest fullContent (rseq ([Rx.lit "\x7b".data] ++ jsxBindCore loadingName true))
      else false

/-- Statement of the claim wording: the resolved loading name is destructured
from a props-like source. -/
def specDestructuredFromProps (name full : Text) : Bool :=
  destructureHit name full

/-- Statement of the claim wording: the loading name is bound to a
loading/spinning attribute in the comment-stripped markup. -/
def specBoundInMarkup (name full : Text) : Bool :=
  (loadingTemplatePatterns name).any (rxTest (stripCommentsRegex full))

/-- C5: with `requireJSXUsage = true` (the rule-2 call site, line 2133) the
shared-loading evidence is accepted exactly when the name is both
destructured from a props-like source and bound in the markup; if either
condition is missing the function returns `false`. -/
theorem c5_loading_usage_requires_both (name content template : Text)
    (h : name ≠ []) :
    checkDeclareRequestLoadingUsage name content template true =
      (specDestructuredFromProps name (content ++ '\n' :: template) &&
       specBoundInMarkup name (content ++ '\n' :: template)) := by
  have hne : name.isEmpty = false := by
    cases name with
    | nil => exact absurd rfl h
    | cons c cs => rfl
  unfold checkDeclareRequestLoadingUsage specDestructuredFromProps specBoundInMarkup
  by_cases hd : destructureHit name (content ++ '\n' :: template) = true <;>
    simp_all

/-- Witness for `c5_loading_usage_requires_both`: a page that destructures
`pageLoading` from `props.global` but never binds it in markup is rejected
by the rule-2 check. -/
theorem c5_loading_usage_requires_both_witness :
    checkDeclareRequestLoadingUsage "pageLoading".data
      "const \x7b pageLoading \x7d = props.global;".data [] true = false ∧
    specDestructuredFromProps "pageLoading".data
      ("const \x7b pageLoading \x7d = props.global;".data ++ '\n' :: []) = true ∧
    specBoundInMarkup "pageLoading".data
      ("const \x7b pageLoading \x7d = props.global;".data ++ '\n' :: []) = false := by
  refine ⟨?_, by decide, by decide⟩
  rw [c5_loading_usage_requires_both _ _ _ (by decide)]
  decide

/-- Name of a JSX element: `JSXIdentifier` or a one-level
`JSXMemberExpression` (the only shapes the source inspects). -/
inductive JSXName where
  | jsxId (name : Text)
  | jsxMem (obj prop : Text)
deriving DecidableEq

mutual
/-- Babel expression nodes, restricted to the kinds inspected by
commit-check-core.js.  Lists of children use the explicit list types below
so that functions over the family are structurally recursive. -/
inductive JExpr where
  | ident (name : Text)
  | thisE
  | strL (value : Text)
  | numL (value : Nat)
  | boolL (value : Bool)
  | member (obj : JExpr) (prop : JExpr)
  | call (callee : JExpr) (args : JExprs)
  | newE (callee : JExpr) (args : JExprs)
  | objE (props : JProps)
  | arrow (isAsync : Bool) (body : JFunBody)
  | funE (isAsync : Bool) (body : JStmts)
  | awaitE (arg : JExpr)
  | jsxE (name : JSXName) (attrs : JSXAttrs) (children : JExprs)
deriving DecidableEq

inductive JExprs where
  | nil
  | cons (head : JExpr) (tail : JExprs)
deriving DecidableEq

inductive JProps where
  | nil
  | cons (head : JProp) (tail : JProps)
deriving DecidableEq

/-- Object-literal member: a keyed property or any other member kind. -/
inductive JProp where
  | objProp (key : JExpr) (value : JExpr)
  | otherProp
deriving DecidableEq

/-- Body of an arrow function: block or bare expression. -/
inductive JFunBody where
  | block (stmts : JStmts)
  | exprB (e : JExpr)
deriving DecidableEq

inductive JStmts where
  | nil
  | cons (head : JStmt) (tail : JStmts)
deriving DecidableEq

/-- Statement nodes (the kinds the checked functions distinguish). -/
inductive JStmt where
  | exprStmt (e : JExpr)
  | funDecl (name : Text) (isAsync : Bool) (body : JStmts)
deriving DecidableEq

inductive JSXAttrs where
  | nil
  | cons (head : JSXAttr) (tail : JSXAttrs)
deriving DecidableEq

/-- JSX attribute: named attribute or spread. -/
inductive JSXAttr where
  | attr (name : Text) (value : JSXAttrVal)
  | spreadAttr
deriving DecidableEq

/-- Value of a JSX attribute: string literal, expression container, or
absent. -/
inductive JSXAttrVal where
  | strV (s : Text)
  | exprV (e : JExpr)
  | noneV
deriving DecidableEq
end

def JExprs.toList : JExprs → List JExpr
  | .nil => []
  | .cons h t => h :: t.toList

def JExprs.ofList : List JExpr → JExprs
  | [] => .nil
  | h :: t => .cons h (JExprs.ofList t)

def JProps.toList : JProps → List JProp
  | .nil => []
  | .cons h t => h :: t.toList

def JProps.ofList : List JProp → JProps
  | [] => .nil
  | h :: t => .cons h (JProps.ofList t)

def JStmts.toList : JStmts → List JStmt
  | .nil => []
  | .cons h t => h :: t.toList

def JStmts.ofList : List JStmt → JStmts
  | [] => .nil
  | h :: t => .cons h (JStmts.ofList t)

def JSXAttrs.toList : JSXAttrs → List JSXAttr
  | .nil => []
  | .cons h t => h :: t.toList

def JSXAttrs.ofList : List JSXAttr → JSXAttrs
  | [] => .nil
  | h :: t => .cons h (JSXAttrs.ofList t)

/-- A parsed program: the top-level statement list. -/
abbrev JProgram := JStmts

/-- A node as seen by a Babel visitor path. -/
inductive JNode where
  | exprN (e : JExpr)
  | stmtN (s : JStmt)
  | propN (p : JProp)
  | attrN (a : JSXAttr)
deriving DecidableEq

mutual
/-- Pre-order walk of an expression, recording for every node its ancestor
chain (nearest first), as Babel paths expose via `parentPath`.  Block
statements are not separate nodes here: the statements of a function body
have the function itself as nearest ancestor (none of the checked code
matches a `BlockStatement` ancestor). -/
def walkE (anc : List JNode) (e : JExpr) : List (JNode × List JNode) :=
  (.exprN e, anc) ::
    (match e with
     | .ident _ => []
     | .thisE => []
     | .strL _ => []
     | .numL _ => []
     | .boolL _ => []
     | .member o p => walkE (.exprN e :: anc) o ++ walkE (.exprN e :: anc) p
     | .call c a => walkE (.exprN e :: anc) c ++ walkEs (.exprN e :: anc) a
     | .newE c a => walkE (.exprN e :: anc) c ++ walkEs (.exprN e :: anc) a
     | .objE ps => walkPs (.exprN e :: anc) ps
     | .arrow _ b => walkFB (.exprN e :: anc) b
     | .funE _ b => walkSs (.exprN e :: anc) b
     | .awaitE x => walkE (.exprN e :: anc) x
     | .jsxE _ attrs children =>
       walkAs (.exprN e :: anc) attrs ++ walkEs (.exprN e :: anc) children)

def walkEs (anc : List JNode) : JExprs → List (JNode × List JNode)
  | .nil => []
  | .cons h t => walkE anc h ++ walkEs anc t

def walkPs (anc : List JNode) : JProps → List (JNode × List JNode)
  | .nil => []
  | .cons h t => walkP anc h ++ walkPs anc t

def walkP (anc : List JNode) (p : JProp) : List (JNode × List JNode) :=
  (.propN p, anc) ::
    (match p with
     | .objProp k v => walkE (.propN p :: anc) k ++ walkE (.propN p :: anc) v
     | .otherProp => [])

def walkFB (anc : List JNode) : JFunBody → List (JNode × List JNode)
  | .block ss => walkSs anc ss
  | .exprB e => walkE anc e

def walkSs (anc : List JNode) : JStmts → List (JNode × List JNode)
  | .nil => []
  | .cons h t => walkS anc h ++ walkSs anc t

def walkS (anc : List JNode) (s : JStmt) : List (JNode × List JNode) :=
  (.stmtN s, anc) ::
    (match s with
     | .exprStmt e => walkE (.stmtN s :: anc) e
     | .funDecl _ _ body => walkSs (.stmtN s :: anc) body)

def walkAs (anc : List JNode) : JSXAttrs → List (JNode × List JNode)
  | .nil => []
  | .cons h t => walkA anc h ++ walkAs anc t

def walkA (anc : List JNode) (a : JSXAttr) : List (JNode × List JNode) :=
  (.attrN a, anc) ::
    (match a with
     | .attr _ (.exprV e) => walkE (.attrN a :: anc) e
     | .attr _ _ => []
     | .spreadAttr => [])
end

/-- All nodes of a program with their ancestor chains, in visit order. -/
def allNodes (prog : JProgram) : List (JNode × List JNode) :=
  walkSs [] prog

/-- Standalone `getMethodName` (commit-check-core.js lines 2745-2757):
identifier name, `object.property` with non-identifier parts as empty
strings, or recursion through a call callee. -/
def getMethodName : JExpr → Text
  | .ident n => n
  | .member o p =>
    let obj := match o with
      | .ident n => n
      | .member _ _ => getMethodName o
      | _ => []
    let prop := match p with
      | .ident n => n
      | _ => []
    obj ++ '.' :: prop
  | .call c _ => getMethodName c
  | _ => []

/-- `ASTUtils.getMethodName` (lines 243-254): recurses through both sides of
a member expression and suffixes `()` for call callees. -/
def astGetMethodName : JExpr → Text
  | .ident n => n
  | .member o p => astGetMethodName o ++ '.' :: astGetMethodName p
  | .call c _ => astGetMethodName c ++ "()".data
  | _ => []

/-- Request-method keywords from the shipped `commit-check.config.js`
(`rule1.customKeywords.requestMethods`). -/
def configRequestMethods : List Text :=
  ["fetch", "axios", "request", "http", "api", "action", "dispatch", "xhr",
   "ajax", "fetchdataapi"].map String.data

/-- HTTP verb list used by `isApiCall` (line 3213). -/
def httpVerbs : List Text :=
  ["post", "get", "put", "delete", "patch", "request"].map String.data

/-- Does an object-literal argument carry a `type` property (the
`props.dispatch` payload test of lines 3299-3311)? -/
def hasTypeProp : List JProp → Bool
  | [] => false
  | .objProp (.ident k) _ :: rest => k == "type".data || hasTypeProp rest
  | _ :: rest => hasTypeProp rest

/-- Step-2 shape of `isApiCall`: `props.xxxAction` callee (lines 3228-3232). -/
def isPropsActionCallee : JExpr → Bool
  | .member (.ident o) (.ident p) => o == "props".data && endsWithT p "Action".data
  | _ => false

/-- Step-2 shape of `isApiCall`: `this.props.xxxAction` callee (lines
3235-3244). -/
def isThisPropsActionCallee : JExpr → Bool
  | .member (.member oo (.ident op)) (.ident p) =>
    (oo == JExpr.thisE || oo == JExpr.ident "this".data) &&
      op == "props".data && endsWithT p "Action".data
  | _ => false

/-- Step-2 shape of `isApiCall`: `http.Post` &c with capitalised verb
(lines 3247-3251). -/
def isHttpCapVerbCallee : JExpr → Bool
  | .member (.ident o) (.ident p) =>
    o == "http".data &&
      (["Post", "Get", "Put", "Delete", "Patch"].map String.data).contains p
  | _ => false

/-- Step-2 shape of `isApiCall`: a member whose object ends in `$http` with a
lowercase verb property (lines 3254-3259). -/
def isDollarHttpCallee : JExpr → Bool
  | .member (.member _ (.ident op)) (.ident p) =>
    op == "$http".data && httpVerbs.contains (lowerText p)
  | _ => false

/-- Step-2 shape of `isApiCall`: `$.ajax` or `jQuery.ajax` (lines
3262-3267). -/
def isJQueryAjaxCallee : JExpr → Bool
  | .member (.ident o) (.ident p) =>
    (o == "$".data || o == "jQuery".data) && p == "ajax".data
  | _ => false

/-- Step-2 shape of `isApiCall`: `ajax.post()` &c (lines 3270-3274). -/
def isAjaxObjCallee : JExpr → Bool
  | .member (.ident o) (.ident p) =>
    o == "ajax".data && httpVerbs.contains (lowerText p)
  | _ => false

/-- Step-6 shape of `isApiCall`: `props.dispatch({ type: ... })` (lines
3293-3313). -/
def isPropsDispatchType (callee : JExpr) (args : List JExpr) : Bool :=
  match callee with
  | .member (.ident o) (.ident p) =>
    o == "props".data && p == "dispatch".data &&
      (match args.head? with
       | some (.objE ps) => hasTypeProp ps.toList
       | _ => false)
  | _ => false

/-- Step-7 shape of `isApiCall`: callee is `new XMLHttpRequest(...)` (lines
3316-3320). -/
def isNewXhrCallee : JExpr → Bool
  | .newE (.ident n) _ => n == "XMLHttpRequest".data
  | _ => false

/-- Step-7 shape of `isApiCall`: `xhr.open()`, `xhr.send()`,
`xhr.setRequestHeader()` on a variable whose name contains `xhr`/`http`
(lines 3323-3336). -/
def isXhrMethodCallee : JExpr → Bool
  | .member (.ident o) (.ident p) =>
    (["open", "send", "setRequestHeader"].map String.data).contains p &&
      (hasSub (lowerText o) "xhr".data || hasSub (lowerText o) "http".data)
  | _ => false

/-- `isApiCall` (commit-check-core.js lines 3203-3348) on a call node given
its callee and argument list.  Every branch of the JS function returns
`true` and otherwise falls through, so the chain is the disjunction of the
step conditions, in source order.  The request-method keywords come from the
shipped configuration. -/
def isApiCall (callee : JExpr) (args : List JExpr) : Bool :=
  let lowerName := lowerText (getMethodName callee)
  ((httpVerbs.any (fun m => hasSub lowerName m)) &&
      !(["console", "log", "warn", "error", "debug", "info"].map String.data
        |>.any (fun p => hasSub lowerName p))) ||
  isPropsActionCallee callee ||
  isThisPropsActionCallee callee ||
  isHttpCapVerbCallee callee ||
  isDollarHttpCallee callee ||
  isJQueryAjaxCallee callee ||
  isAjaxObjCallee callee ||
  callee == JExpr.ident "axios".data ||
  callee == JExpr.ident "fetch".data ||
  callee == JExpr.ident "fetchDataApi".data ||
  isPropsDispatchType callee args ||
  isNewXhrCallee callee ||
  isXhrMethodCallee callee ||
  ((configRequestMethods.any (fun m => hasSub lowerName (lowerText m))) &&
      !(["console", "log", "warn", "error", "debug", "info", "parse",
         "stringify"].map String.data |>.any (fun p => hasSub lowerName p)))

/-- C8: a call on a `props`-rooted (or `this.props`-rooted) member whose
property name ends in `Action` is always classified as a network call by
`isApiCall`, whatever the arguments: either the verb-substring step already
fires, or the dedicated `props.xxxAction` steps do. -/
theorem c8_props_action_is_api_call (name : Text) (args : List JExpr)
    (h : endsWithT name "Action".data = true) :
    isApiCall (.member (.ident "props".data) (.ident name)) args = true ∧
    isApiCall (.member (.member JExpr.thisE (.ident "props".data)) (.ident name)) args
      = true := by
  have hc : isPropsActionCallee
      (.member (.ident "props".data) (.ident name)) = true := by
    show ("props".data == "props".data && endsWithT name "Action".data) = true
    rw [h]
    decide
  have hc2 : isThisPropsActionCallee
      (.member (.member JExpr.thisE (.ident "props".data)) (.ident name)) = true := by
    show ((JExpr.thisE == JExpr.thisE || JExpr.thisE == JExpr.ident "this".data) &&
      ("props".data == "props".data && endsWithT name "Action".data)) = true
    rw [h]
    decide
  constructor
  · simp only [isApiCall, hc, Bool.or_true, Bool.true_or]
  · simp only [isApiCall, hc2, Bool.or_true, Bool.true_or]

/-- Witness for `c8_props_action_is_api_call` at `props.SaveAction()`. -/
theorem c8_props_action_is_api_call_witness :
    isApiCall (.member (.ident "props".data) (.ident "SaveAction".data)) [] = true :=
  (c8_props_action_is_api_call "SaveAction".data [] (by decide)).1

/-- Debounce/throttle scan of `checkHandlerForRule1` (commit-check-core.js
lines 735-762): walk the ancestor chain of an API call outward; at each
ancestor that is a call whose method name contains `debounce` or `throttle`,
protection is established when there are fewer than two arguments, or when
the second argument (the delay) is a numeric literal of at least 500 or an
identifier; any other delay lets the scan continue outward.  Numeric
literals are modelled as naturals, matching the non-negative literals the
JS comparison `delay.value >= 500` inspects. -/
def debounceLoop : List JNode → Bool
  | [] => false
  | n :: rest =>
    match n with
    | .exprN (.call callee args) =>
      let parentCallee := getMethodName callee
      if hasSub parentCallee "debounce".data || hasSub parentCallee "throttle".data then
        let argList := args.toList
        if argList.length ≥ 2 then
          match argList.get? 1 with
          | some (.numL v) => if v ≥ 500 then true else debounceLoop rest
          | some (.ident _) => true
          | _ => debounceLoop rest
        else true
      else debounceLoop rest
    | _ => debounceLoop rest

/-- C4: for a network call whose only enclosing wrapper is a
debounce/throttle call with an explicit delay argument, the wrapper counts
as double-submit protection exactly when the delay is a numeric literal of
at least 500 or an identifier; a numeric literal below 500 gives no
protection. -/
theorem c4_debounce_delay (callee f delay : JExpr)
    (h : hasSub (getMethodName callee) "debounce".data = true ∨
         hasSub (getMethodName callee) "throttle".data = true) :
    debounceLoop [.exprN (.call callee (JExprs.ofList [f, delay]))] = true ↔
      ((∃ v, delay = .numL v ∧ 500 ≤ v) ∨ (∃ s, delay = .ident s)) := by
  have hname : (hasSub (getMethodName callee) "debounce".data ||
      hasSub (getMethodName callee) "throttle".data) = true := by
    rcases h with h | h <;> simp [h]
  cases delay <;>
    simp_all [debounceLoop, JExprs.ofList, JExprs.toList] <;> omega

/-- Witness for `c4_debounce_delay`: `debounce(handler, 600)` protects, by
the theorem applied at a concrete wrapper. -/
theorem c4_debounce_delay_witness :
    debounceLoop [.exprN (.call (.ident "debounce".data)
      (JExprs.ofList [.ident "handler".data, .numL 600]))] = true :=
  (c4_debounce_delay (.ident "debounce".data) (.ident "handler".data) (.numL 600)
    (Or.inl (by decide))).mpr (Or.inl ⟨600, rfl, by omega⟩)

/-- Upper-case a text (JS `toUpperCase`, restricted to the characters used). -/
def upperText (t : Text) : Text := t.map Char.toUpper

/-- A rule-violation record.  The engine's `message`/`suggestion`/`file`/
`line` fields are presentation data; the claims under check depend only on
which rule fired, so only the rule number is modelled. -/
structure Violation where
  rule : Nat
deriving DecidableEq

/-- One parsed staged file (`parseVueFile`/`parseJSFile`/`parseHTMLFile`
results): file kind, optional syntax tree, extracted template (empty when
absent, matching the JS destructuring default `template = ''`), and raw
content. -/
structure ParsedFile where
  ptype : Text
  ast : Option JProgram
  template : Text
  content : Text

/-- Per-rule `enabled` flags of the shipped `commit-check.config.js`. -/
def configRuleEnabled : Bool := true

/-- `config.rule3.customKeywords.successMethods` of the shipped config. -/
def configSuccessMethods : List Text :=
  ["message.success", "$message.success", "showSuccessTip", "ElMessage.success",
   "Message.success"].map String.data

/-- `config.rule3.whitelist.keywords` of the shipped config. -/
def configRule3Whitelist : List Text := ["batch".data, "批量".data]

/-- `checkStatementForSuccessTip` (lines 2363-2375): an expression statement
whose call method name contains a configured success method. -/
def checkStatementForSuccessTip : JStmt → Bool
  | .exprStmt (.call c _) =>
    configSuccessMethods.any (fun m => hasSub (getMethodName c) m)
  | _ => false

/-- `checkForSuccessTip` (lines 2340-2358): search an arrow/function callback
body (block statements, or a bare call body) for a success-toast call. -/
def checkForSuccessTip : JExpr → Bool
  | .arrow _ (.block ss) => ss.toList.any checkStatementForSuccessTip
  | .arrow _ (.exprB e) =>
    match e with
    | .call _ _ => checkStatementForSuccessTip (.exprStmt e)
    | _ => false
  | .funE _ ss => ss.toList.any checkStatementForSuccessTip
  | _ => false

/-- Is this node one of Babel's function kinds? -/
def isFunctionNode : JNode → Bool
  | .exprN (.arrow _ _) => true
  | .exprN (.funE _ _) => true
  | .stmtN (.funDecl _ _ _) => true
  | _ => false

/-- The `async` flag of a function node. -/
def fnIsAsync : JNode → Bool
  | .exprN (.arrow a _) => a
  | .exprN (.funE a _) => a
  | .stmtN (.funDecl _ a _) => a
  | _ => false

/-- Block-statement body of a function node, when it has one. -/
def fnBodyStmts : JNode → Option (List JStmt)
  | .exprN (.arrow _ (.block ss)) => some ss.toList
  | .exprN (.funE _ ss) => some ss.toList
  | .stmtN (.funDecl _ _ ss) => some ss.toList
  | _ => none

/-- Name of a function node (`parentFunc.node.id`): only function
declarations carry one here. -/
def fnName : JNode → Text
  | .stmtN (.funDecl n _ _) => n
  | _ => []

/-- First member-expression ancestor together with its own parent
(`callPath.findParent(p => p.isMemberExpression())` and
`memberExpr.parentPath`). -/
def firstMemberParent : List JNode → Option (JNode × Option JNode)
  | [] => none
  | n :: rest =>
    match n with
    | .exprN (.member _ _) => some (n, rest.head?)
    | _ => firstMemberParent rest

/-- Mutation-keyword list of rule 3's dispatch-payload test (lines
2224-2227). -/
def rule3TypeKeywords : List Text :=
  ["add", "create", "update", "edit", "delete", "remove", "submit",
   "save"].map String.data

/-- The `isPostPut` disjunction of `checkRule3` (lines 2206-2269). -/
def rule3IsPostPut (methodName : Text) (args : List JExpr) : Bool :=
  let lower := lowerText methodName
  (["post", "put", "delete", "patch"].map String.data
    |>.any (fun v => endsWithT lower ('.' :: v))) ||
  (hasSub methodName "ajax.".data &&
    (hasSub lower ".post".data || hasSub lower ".put".data ||
      hasSub lower ".delete".data)) ||
  (hasSub methodName "dispatch".data && args.any (fun arg =>
    match arg with
    | .objE ps => ps.toList.any (fun pr =>
        match pr with
        | .objProp (.ident k) (.strL v) =>
          k == "type".data && rule3TypeKeywords.any (fun kw => hasSub (lowerText v) kw)
        | _ => false)
    | _ => false)) ||
  (endsWithT methodName "Action".data &&
    ((["add", "create", "update", "edit", "delete", "remove", "submit", "save",
       "copy", "post", "put"].map String.data |>.any (fun kw => hasSub lower kw)) ||
     (["post", "put"].map String.data |>.any (fun v => endsWithT lower ('.' :: v))) ||
     startsWithT lower "post".data || startsWithT lower "put".data)) ||
  (hasSub methodName "axios".data && args.any (fun arg =>
    match arg with
    | .objE ps => ps.toList.any (fun pr =>
        match pr with
        | .objProp (.ident k) (.strL v) =>
          (k == "method".data || k == "type".data) &&
            (upperText v == "POST".data || upperText v == "PUT".data ||
              upperText v == "DELETE".data)
        | _ => false)
    | _ => false))

/-- Rule-3 handling of one visited call node (the body of the
`CallExpression` visitor, lines 2182-2331).  `anc` is the node's ancestor
chain.  The JS `s === callPath.node` comparison of a statement against an
expression node can never hold and is dropped; `s.expression ===
callPath.node` is modelled by structural equality. -/
def rule3CallErrors (callee : JExpr) (args : JExprs) (anc : List JNode) :
    List Violation :=
  if !isApiCall callee args.toList then []
  else
    let methodName := getMethodName callee
    let lower := lowerText methodName
    let isExcludedMethod :=
      (["tostring", "includes", "input", "output"].map String.data).any
        (fun p => lower == p || endsWithT lower ('.' :: p) ||
          hasSub lower ('.' :: p ++ "(".data))
    if isExcludedMethod then []
    else if !rule3IsPostPut methodName args.toList then []
    else
      let parentFunc := anc.find? (fun n => isFunctionNode n)
      let funcName := match parentFunc with
        | some pf => fnName pf
        | none => []
      let hasOperationKeyword :=
        (["add", "create", "delete", "remove", "edit", "update", "batch"].map
          String.data).any (fun k => hasSub (lowerText funcName) k)
      if configRule3Whitelist.any (fun k => hasSub funcName k) then []
      else if hasOperationKeyword || rule3IsPostPut methodName args.toList then
        let thenTip :=
          match firstMemberParent anc with
          | some (.exprN (.member _ mProp), some (.exprN (.call _ thenArgs))) =>
            if mProp == JExpr.ident "then".data then
              match thenArgs.toList.head? with
              | some cb => checkForSuccessTip cb
              | none => false
            else false
          | _ => false
        let asyncTip :=
          if !thenTip then
            match parentFunc with
            | some pf =>
              if fnIsAsync pf then
                match fnBodyStmts pf with
                | some stmts =>
                  let idx? := stmts.findIdx? (fun s =>
                    match s with
                    | .exprStmt e => e == JExpr.call callee args
                    | _ => false)
                  let start := match idx? with
                    | some i => i + 1
                    | none => 0
                  (stmts.drop start).any checkStatementForSuccessTip
                | none => false
              else false
            | none => false
          else false
        if !(thenTip || asyncTip) then [⟨3⟩] else []
      else []

/-- `checkRule3` (commit-check-core.js lines 2172-2335): with no tree the
rule reports nothing; otherwise every visited call node is examined and the
collected violations are returned, `null` (`none`) when empty. -/
def checkRule3 (parsed : ParsedFile) : Option (List Violation) :=
  if !configRuleEnabled then none
  else
    match parsed.ast with
    | none => none
    | some prog =>
      let errors := (allNodes prog).flatMap (fun na =>
        match na with
        | (.exprN (.call c a), anc) => rule3CallErrors c a anc
        | _ => [])
      if errors.length > 0 then some errors else none

/-- The call `axios.post('/api/add', data)`. -/
def axiosPostCall : JExpr :=
  .call (.member (.ident "axios".data) (.ident "post".data))
    (JExprs.ofList [.strL "/api/add".data, .ident "data".data])

/-- Program `axios.post('/api/add', data).then(res => console.log(res))`. -/
def rule3ViolationProg : JProgram :=
  JStmts.ofList [.exprStmt (.call (.member axiosPostCall (.ident "then".data))
    (JExprs.ofList [.arrow false (.exprB (.call
      (.member (.ident "console".data) (.ident "log".data))
      (JExprs.ofList [.ident "res".data])))]))]

/-- Program `axios.post('/api/add', data).then(res => message.success('ok'))`. -/
def rule3PassProg : JProgram :=
  JStmts.ofList [.exprStmt (.call (.member axiosPostCall (.ident "then".data))
    (JExprs.ofList [.arrow false (.exprB (.call
      (.member (.ident "message".data) (.ident "success".data))
      (JExprs.ofList [.strL "ok".data])))]))]

/-- C6: on the mutating call with a `.then` callback that only logs, rule 3
emits exactly one violation; replacing the callback body with the configured
`message.success('ok')` yields zero violations. -/
theorem c6_rule3_then_success_tip :
    checkRule3 ⟨"js".data, some rule3ViolationProg, [], []⟩ = some [⟨3⟩] ∧
    checkRule3 ⟨"js".data, some rule3PassProg, [], []⟩ = none := by
  decide

/-- Display text of a JSX element name (`ASTUtils.hasJSXComponent`,
lines 405-417). -/
def jsxNameText : JSXName → Text
  | .jsxId n => n
  | .jsxMem o p => o ++ '.' :: p

/-- AST half of `ASTUtils.hasKeyword` (lines 325-362): a case-insensitive
hit on any identifier (including function-declaration names, which Babel
visits as identifiers), member-property name, or call method name; string
and template literals are deliberately skipped. -/
def astHasKeyword (prog : JProgram) (kw : Text) : Bool :=
  (allNodes prog).any (fun na =>
    match na.1 with
    | .exprN (.ident n) => hasSubCI n kw
    | .stmtN (.funDecl n _ _) => hasSubCI n kw
    | .exprN (.member _ (.ident pn)) => hasSubCI pn kw
    | .exprN (.call c _) => hasSubCI (astGetMethodName c) kw
    | _ => false)

/-- `ASTUtils.hasKeyword` for a single keyword (lines 313-371): AST search
first, then the comment/string-stripped content fallback; `false` when both
tree and content are absent. -/
def hasKeywordOne (ast : Option JProgram) (content : Text) (kw : Text) : Bool :=
  if ast = none ∧ content = [] then false
  else
    (match ast with
     | some prog => astHasKeyword prog kw
     | none => false) ||
    (if content ≠ [] then hasSubCI (removeCommentsAndStrings content) kw
     else false)

/-- `ASTUtils.hasKeyword` over a keyword list. -/
def hasKeywordList (ast : Option JProgram) (content : Text) (kws : List Text) : Bool :=
  kws.any (hasKeywordOne ast content)

/-- `ASTUtils.hasMethodCall` (lines 376-394). -/
def hasMethodCallAst (ast : Option JProgram) (m : Text) : Bool :=
  match ast with
  | none => false
  | some prog =>
    (allNodes prog).any (fun na =>
      match na.1 with
      | .exprN (.call c _) => hasSub (lowerText (astGetMethodName c)) (lowerText m)
      | _ => false)

/-- `ASTUtils.hasJSXComponent` (lines 399-427). -/
def hasJSXComponent (ast : Option JProgram) (comp : Text) : Bool :=
  match ast with
  | none => false
  | some prog =>
    (allNodes prog).any (fun na =>
      match na.1 with
      | .exprN (.jsxE nm _ _) =>
        jsxNameText nm == comp || lowerText (jsxNameText nm) == lowerText comp
      | _ => false)

/-- `config.rule4.whitelist.keywords` of the shipped config (empty). -/
def configRule4Whitelist : List Text := []

/-- `config.rule4.customKeywords.emptyComponents` of the shipped config. -/
def configEmptyComponents : List Text :=
  ["Empty", "NoData", "EmptyTip"].map String.data

/-- `checkRule4` (commit-check-core.js lines 2380-2456).  The table and
list-render triggers test the raw template/content (`includes`), while the
empty-state evidence runs over the comment/string-stripped text or the AST;
at most one violation (rule 4) is produced. -/
def checkRule4 (parsed : ParsedFile) : Option (List Violation) :=
  if !configRuleEnabled then none
  else
    let template := parsed.template
    let content := parsed.content
    let ast := parsed.ast
    let hasTableComponent :=
      (template ≠ [] ∧ (hasSub template "el-table".data = true ∨
        hasSub template "<Table".data = true)) ∨
      hasSub content "ElTable".data = true ∨ hasSub content "Table".data = true ∨
      (hasSub content "antd".data = true ∧ hasSub content "Table".data = true)
    if hasTableComponent then none
    else
      let hasListRender :=
        (template ≠ [] ∧ hasSub template "v-for".data = true) ∨
        hasSub content ".map(".data = true ∨
        hasSub content "forEach".data = true ∨
        hasSub content "for (".data = true
      if ¬hasListRender then none
      else if configRule4Whitelist.any (fun k => hasSub content k) then none
      else
        let e1 :=
          if template ≠ [] then
            let cleanTemplate := removeCommentsAndStrings template
            hasSub cleanTemplate "暂无数据".data || hasSub cleanTemplate "暂无".data ||
              hasSub cleanTemplate "v-if=\x22!".data ||
              hasSub cleanTemplate "v-if=\x22list.length === 0".data
          else false
        let e2 := e1 || hasKeywordList ast content ["暂无数据".data, "暂无".data]
        let e3 := e2 ||
          (match ast with
           | some _ => configEmptyComponents.any (fun comp => hasJSXComponent ast comp)
           | none => false)
        let e4 := e3 || hasKeywordList ast content
          ["length === 0".data, "length == 0".data, "!list".data,
           "list.length === 0".data]
        if !e4 then some [⟨4⟩] else none

/-- C1 counterexample: a file whose only `.map(` occurrence sits inside a
line comment (the stripped text no longer contains it) still receives a
rule-4 violation, because the rule-4 list-render trigger tests the raw
content. -/
theorem c1_counterexample :
    hasSub (removeCommentsAndStrings "// items.map(x)\nrender();".data)
      ".map(".data = false ∧
    checkRule4 ⟨"html".data, none, [], "// items.map(x)\nrender();".data⟩ =
      some [⟨4⟩] := by
  decide

/-- C1 (amended): comment/string immunity holds for the evaluator checks
that use the stripper or the AST, but not for rule 4's scope trigger: any
content containing `.map(` — whether as live code or only inside a comment
or string — counts as list rendering, and when no table token, whitelist
keyword, or empty-state evidence is present, rule 4 emits its violation.
Live `.map(` code therefore also produces the violation under the same
conditions. -/
theorem c1_rule4_trigger_is_raw (content : Text)
    (hmap : hasSub content ".map(".data = true)
    (htable : hasSub content "Table".data = false)
    (hempty1 : hasSubCI (removeCommentsAndStrings content) "暂无".data = false)
    (hlen1 : hasSubCI (removeCommentsAndStrings content) "length === 0".data = false)
    (hlen2 : hasSubCI (removeCommentsAndStrings content) "length == 0".data = false)
    (hlen3 : hasSubCI (removeCommentsAndStrings content) "!list".data = false) :
    checkRule4 ⟨"html".data, none, [], content⟩ = some [⟨4⟩] := by
  have hcne : content ≠ [] := by
    intro h
    rw [h] at hmap
    exact absurd hmap (by decide)
  have hel : hasSub content "ElTable".data = false :=
    hasSub_absent_of_super htable (by decide)
  have hzw : hasSubCI (removeCommentsAndStrings content) "暂无数据".data = false := by
    unfold hasSubCI at *
    exact hasSub_absent_of_super hempty1 (by decide)
  have hll : hasSubCI (removeCommentsAndStrings content) "list.length === 0".data
      = false := by
    unfold hasSubCI at *
    exact hasSub_absent_of_super hlen1 (by decide)
  simp [checkRule4, hasKeywordList, hasKeywordOne, astHasKeyword, hasJSXComponent,
    hmap, htable, hel, hempty1, hzw, hlen1, hlen2, hlen3, hll, hcne,
    configRuleEnabled, configRule4Whitelist]

/-- Split a text at its first `>`: the characters before it and the
characters after it. -/
def splitAtGt : Text → Option (Text × Text)
  | [] => none
  | c :: rest =>
    if c = '>' then some ([], rest)
    else
      match splitAtGt rest with
      | some (a, b) => some (c :: a, b)
      | none => none

/-- Global matching of the rule-5 tag pattern `<Name[^>]*>` (flags `gi`,
line 2674): every match runs from a case-insensitive occurrence of `<Name`
to the next `>`, and scanning resumes after it.  `fuel` bounds the scan by
the text length; every step consumes at least one character, so the bound
is never reached. -/
def tagScanSimple (pre : Text) : Nat → Text → List Text
  | 0, _ => []
  | _, [] => []
  | fuel + 1, t@(_ :: rest) =>
    if startsWithT (lowerText t) (lowerText pre) then
      match splitAtGt (t.drop pre.length) with
      | some (seg, rem) =>
        (t.take pre.length ++ seg ++ ['>']) :: tagScanSimple pre fuel rem
      | none => tagScanSimple pre fuel rest
    else tagScanSimple pre fuel rest

/-- Global matching of the dotted rule-5 tag pattern
`<P0[^>]*\.P1[^>]*>` (line 2671): as `tagScanSimple`, but the segment
before the closing `>` must also contain `.P1`. -/
def tagScanDotted (pre dot : Text) : Nat → Text → List Text
  | 0, _ => []
  | _, [] => []
  | fuel + 1, t@(_ :: rest) =>
    if startsWithT (lowerText t) (lowerText pre) then
      match splitAtGt (t.drop pre.length) with
      | some (seg, rem) =>
        if hasSubCI seg ('.' :: dot) then
          (t.take pre.length ++ seg ++ ['>']) :: tagScanDotted pre dot fuel rem
        else tagScanDotted pre dot fuel rest
      | none => tagScanDotted pre dot fuel rest
    else tagScanDotted pre dot fuel rest

/-- Character class `["'{]` of the placeholder-attribute patterns. -/
def quoteOrBrace (c : Char) : Bool :=
  c = chDQuote || c = chQuote || c = chLBrace

/-- Rule-5 JSX placeholder pattern `attr\s*=\s*["'{]` (line 2692). -/
def jsxAttrPat (attr : Text) : Rx :=
  rseq [.lit attr, .star wsChar, .lit "=".data, .star wsChar, .one quoteOrBrace]

/-- Rule-5 Vue placeholder pattern
`[:]?attr\s*=\s*["'{]|v-bind:attr\s*=\s*["'{]` (line 2694). -/
def vueAttrPat (attr : Text) : Rx :=
  .alt
    (rseq [.opt (· = ':'), .lit attr, .star wsChar, .lit "=".data, .star wsChar,
      .one quoteOrBrace])
    (rseq [.lit ("v-bind:".data ++ attr), .star wsChar, .lit "=".data,
      .star wsChar, .one quoteOrBrace])

/-- `config.rule5.customKeywords.inputComponents` of the shipped config. -/
def configRule5InputComponents : List Text :=
  ["Input", "Input.TextArea", "Input.Password", "Input.Search", "Input.Group",
   "Select", "DatePicker", "RangePicker", "TimePicker", "InputNumber",
   "AutoComplete", "Cascader", "TreeSelect", "Transfer", "Upload", "Rate",
   "el-input", "el-select", "el-date-picker", "el-time-picker",
   "el-input-number", "el-autocomplete", "el-cascader", "el-tree-select",
   "el-transfer", "el-upload", "el-rate",
   "input", "select", "textarea"].map String.data

/-- `config.rule5.customKeywords.placeholderAttributes` of the shipped
config. -/
def configPlaceholderAttrs : List Text :=
  ["placeholder", "placeholderText"].map String.data

/-- `config.rule5.whitelist.keywords` of the shipped config (empty). -/
def configRule5Whitelist : List Text := []

/-- Excluded non-leaf sub-components of `checkRule5`'s AST path (lines
2517-2562). -/
def excludedSubComponents : List Text :=
  ["Select.Option", "Select.OptGroup", "Input.Group", "Cascader.Option",
   "TreeSelect.TreeNode", "Form.Item", "Form.List", "Form.Provider",
   "Upload.Dragger", "Upload.Button", "Transfer.List", "Transfer.Search",
   "Table.Column", "Table.ColumnGroup", "Radio.Group", "Radio.Button",
   "Checkbox.Group", "Menu.Item", "Menu.SubMenu", "Menu.ItemGroup",
   "Dropdown.Button", "Steps.Step", "Tabs.TabPane", "Tabs.Tab",
   "Collapse.Panel", "Timeline.Item", "Breadcrumb.Item",
   "Breadcrumb.Separator", "Anchor.Link", "Pagination.Item",
   "Rate.Character", "Slider.Marks", "Slider.Mark"].map String.data

/-- Rule-5 new-file test (line 2468). -/
def rule5IsNewFile (diff : Text) : Bool :=
  diff == [] || !(hasSub diff "---".data) ||
  (diff != [] && (splitLinesT diff).any (fun l =>
    startsWithT l "+++".data && !(hasSub l "---".data)))

/-- Rule-5 new-input-in-diff test (lines 2469-2475). -/
def rule5HasNewInput (diff : Text) : Bool :=
  diff != [] &&
    ((["<Input", "<input", "<Select", "<select", "<DatePicker", "<TimePicker",
       "el-input", "el-select", "el-date-picker", "<InputNumber",
       "<AutoComplete", "<Cascader", "<TreeSelect", "<TextArea",
       "<textarea"].map String.data).any (fun k => hasSub diff k))

/-- Does the staged diff add a line mentioning the component (lines
2628-2638 and 2710-2722)? -/
def rule5DiffHasComponent (diff componentName : Text) : Bool :=
  (splitLinesT diff).any (fun l =>
    startsWithT l "+".data && !(startsWithT l "+++".data) &&
      hasSub l componentName && hasSub l "<".data)

/-- Per-element body of `checkRule5`'s AST path (lines 2498-2651): skip
excluded sub-components, require a configured input component, skip
whitelisted string attributes, then flag a missing placeholder attribute on
newly added elements. -/
def rule5ElemErrors (isNewFile : Bool) (diff : Text) (nm : JSXName)
    (attrs : List JSXAttr) : List Violation :=
  let componentName := jsxNameText nm
  if excludedSubComponents.contains componentName then []
  else
    let isInputComponent := configRule5InputComponents.any (fun comp =>
      if hasSub comp ".".data then comp == componentName
      else if hasSub componentName ".".data then
        configRule5InputComponents.any (fun c =>
          hasSub c ".".data && c == componentName)
      else comp == componentName || startsWithT componentName comp)
    if !isInputComponent then []
    else
      let hasWhitelistKeyword := attrs.any (fun a =>
        match a with
        | .attr _ (.strV v) => configRule5Whitelist.any (fun k => hasSub v k)
        | _ => false)
      if hasWhitelistKeyword then []
      else
        let hasPlaceholder := configPlaceholderAttrs.any (fun attr =>
          attrs.any (fun an =>
            match an with
            | .attr n _ => n == attr || lowerText n == lowerText attr
            | _ => false))
        if !hasPlaceholder then
          if isNewFile || (diff != [] && rule5DiffHasComponent diff componentName)
          then [⟨5⟩] else []
        else []

/-- All JSX opening elements of a program in visit order. -/
def jsxOpenings (prog : JProgram) : List (JSXName × List JSXAttr) :=
  (allNodes prog).filterMap (fun na =>
    match na.1 with
    | .exprN (.jsxE nm attrs _) => some (nm, attrs.toList)
    | _ => none)

/-- Split a component name at its first dot (JS `name.split('.')`,
parts 0 and 1). -/
def splitAtDot : Text → Text × Text
  | [] => ([], [])
  | c :: rest =>
    if c = '.' then ([], rest)
    else
      match splitAtDot rest with
      | (a, b) => (c :: a, b)

/-- Per-component body of `checkRule5`'s Vue/HTML regex path (lines
2665-2736): find every `<Name...>` (or dotted) tag in the comment-stripped
text, skip whitelisted tags, and flag tags lacking a placeholder attribute
when the element counts as newly added.  The exclusion list of the AST path
has no counterpart here. -/
def rule5RegexComponentErrors (isNewFile : Bool) (diff clean componentName : Text) :
    List Violation :=
  let tags :=
    if hasSub componentName ".".data then
      match splitAtDot componentName with
      | (p0, p1) => tagScanDotted ('<' :: p0) p1 clean.length clean
    else tagScanSimple ('<' :: componentName) clean.length clean
  tags.filterMap (fun tag =>
    if configRule5Whitelist.any (fun k => hasSub tag k) then none
    else
      let hasPlaceholder := configPlaceholderAttrs.any (fun attr =>
        rxTest tag (jsxAttrPat attr) || rxTest tag (vueAttrPat attr))
      if !hasPlaceholder then
        if isNewFile || (diff != [] && rule5DiffHasComponent diff componentName)
        then some ⟨5⟩ else none
      else none)

/-- `checkRule5` (commit-check-core.js lines 2461-2740): scope reduction by
diff, then the AST path for js/jsx/ts/tsx files with a tree, or the regex
path for everything else. -/
def checkRule5 (parsed : ParsedFile) (diff : Text) : Option (List Violation) :=
  if !configRuleEnabled then none
  else
    let isNewFile := rule5IsNewFile diff
    let hasNewInput := rule5HasNewInput diff
    if !isNewFile && !hasNewInput then none
    else
      let regexErrors :=
        let clean := stripCommentsRegex (parsed.content ++ '\n' :: parsed.template)
        configRule5InputComponents.flatMap
          (rule5RegexComponentErrors isNewFile diff clean)
      let errors :=
        match parsed.ast with
        | some prog =>
          if (["js", "jsx", "ts", "tsx"].map String.data).contains parsed.ptype then
            (jsxOpenings prog).flatMap (fun p =>
              rule5ElemErrors isNewFile diff p.1 p.2)
          else regexErrors
        | none => regexErrors
      if errors.length > 0 then some errors else none

/-- C7 counterexample: in the Vue/HTML regex path a brand-new file whose
only element is the excluded sub-component `<Select.Option value="1">`
receives two rule-5 violations (via the `Select` and `select` component
patterns, whose `<Select[^>]*>` regex also matches `<Select.Option ...>`):
the exclusion list exists only in the AST path, so the claim fails for this
input format. -/
theorem c7_counterexample :
    checkRule5 ⟨"html".data, none, [],
      "<Select.Option value=\x221\x22>1</Select.Option>".data⟩ [] =
      some [⟨5⟩, ⟨5⟩] := by
  decide

/-- C7 (amended): in the AST path (js/jsx/ts/tsx files with a tree) an
element whose component name is on the excluded sub-component list is never
flagged, whatever its attributes, the diff, or the new-file state; the
Vue/HTML regex path lacks this exclusion and can flag such elements. -/
theorem c7_rule5_excluded_subcomponents (isNewFile : Bool) (diff : Text)
    (nm : JSXName) (attrs : List JSXAttr)
    (h : excludedSubComponents.contains (jsxNameText nm) = true) :
    rule5ElemErrors isNewFile diff nm attrs = [] := by
  unfold rule5ElemErrors
  rw [if_pos]
  simpa using h

/-- Witness for `c7_rule5_excluded_subcomponents`: a placeholder-less
`<Select.Option>` in a new file produces nothing on the AST path. -/
theorem c7_rule5_excluded_subcomponents_witness :
    rule5ElemErrors true [] (.jsxMem "Select".data "Option".data) [] = [] :=
  c7_rule5_excluded_subcomponents true [] (.jsxMem "Select".data "Option".data) []
    (by decide)

/-- Witness for `c1_rule4_trigger_is_raw`: live `.map(` code with no table,
whitelist, or empty-state evidence produces the rule-4 violation. -/
theorem c1_rule4_trigger_is_raw_witness :
    checkRule4 ⟨"html".data, none, [], "items.map(i => render(i));".data⟩ =
      some [⟨4⟩] :=
  c1_rule4_trigger_is_raw "items.map(i => render(i));".data (by decide) (by decide)
    (by decide) (by decide) (by decide) (by decide)

/-- A candidate button handler extracted from markup (rule 1). -/
structure Handler where
  name : Text
  line : Nat

/-- Button keywords of rule 1's diff trigger (line 454). -/
def rule1ButtonKeywords : List Text :=
  ["button", "Button", "@click", "onClick", "onOk", "onConfirm", "onFinish",
   "htmlType", "Modal", "Drawer", "Popconfirm", "Form"].map String.data

/-- `checkRule1` (commit-check-core.js lines 433-652).  The textual handler
extraction (lines 490-568) is supplied as the `handlers` parameter, and the
per-handler analysis performed inside the `if (ast && handlers.size > 0)`
traversal (function matching plus `checkHandlerForRule1`) as the `astErrs`
parameter; the theorems below hold for every instantiation of both, in
particular the source's. -/
def checkRule1 (astErrs : JProgram → List Handler → List Violation)
    (parsed : ParsedFile) (diff : Text) (handlers : List Handler) :
    Option (List Violation) :=
  if !configRuleEnabled then none
  else
    let isNewFile := diff == [] || !(hasSub diff "---".data) ||
      (diff != [] &&
        ((splitLinesT diff).filter (fun l => startsWithT l "+++".data)).length > 0)
    let hasNewButton :=
      if diff != [] && hasSub diff "+".data then
        let addedCode := joinLinesT
          (((splitLinesT diff).filter
            (fun l => startsWithT l "+".data && !(startsWithT l "+++".data))).map
            (fun l => l.drop 1))
        let cleanDiff := removeCommentsAndStrings addedCode
        let textHit := rule1ButtonKeywords.any (fun k => hasSubCI cleanDiff k)
        if parsed.ast.isSome && !textHit then
          hasJSXComponent parsed.ast "Button".data ||
          hasJSXComponent parsed.ast "Modal".data ||
          hasJSXComponent parsed.ast "Drawer".data ||
          hasJSXComponent parsed.ast "Popconfirm".data ||
          hasJSXComponent parsed.ast "Form".data ||
          hasKeywordList parsed.ast parsed.content
            ["onClick".data, "onOk".data, "onConfirm".data, "onFinish".data,
             "htmlType".data]
        else textHit
      else false
    if !isNewFile && !hasNewButton then none
    else
      let errors :=
        match parsed.ast with
        | some prog => if handlers.length > 0 then astErrs prog handlers else []
        | none => []
      if errors.length > 0 then some errors else none

/-- `config.rule2.whitelist.paths` of the shipped config (empty). -/
def configRule2WhitelistPaths : List Text := []

/-- `checkRule2` (commit-check-core.js lines 1877-2167).  The body of the
`if (ast)` block (the effect-hook traversal that can push violations, lines
1921-2164) is supplied as the `astErrs` parameter; the theorems below hold
for every instantiation, in particular the source's. -/
def checkRule2 (astErrs : JProgram → ParsedFile → List Violation)
    (filePath : Text) (parsed : ParsedFile) (diff : Text) :
    Option (List Violation) :=
  if !configRuleEnabled then none
  else
    let isNewFile := diff == [] ||
      (!(hasSub diff "---".data) && hasSub diff "+++".data) ||
      (diff != [] && (splitLinesT diff).any (fun l =>
        startsWithT l "+++".data && !(hasSub l "---".data)))
    let hasInitLogic := diff != [] &&
      (hasSub diff "created".data || hasSub diff "mounted".data ||
        hasSub diff "useEffect".data || hasSub diff "componentDidMount".data)
    let hasUseEffectInContent := hasMethodCallAst parsed.ast "useEffect".data ||
      hasKeywordOne parsed.ast parsed.content "useEffect".data
    if !isNewFile && !hasInitLogic && !hasUseEffectInContent then none
    else
      let isListPage := (parsed.template != [] &&
          (hasSub parsed.template "el-table".data ||
            hasSub parsed.template "<Table".data)) ||
        hasMethodCallAst parsed.ast ".map".data ||
        hasKeywordList parsed.ast parsed.content [".map(".data, "v-for".data]
      let isDetailPage := hasKeywordList parsed.ast parsed.content
        ["getDetail".data, "fetchDetail".data, "queryDetail".data, "详情".data]
      let hasUseEffect := hasMethodCallAst parsed.ast "useEffect".data ||
        hasKeywordOne parsed.ast parsed.content "useEffect".data
      if !isListPage && !isDetailPage && !hasUseEffect then none
      else if configRule2WhitelistPaths.any (fun p => hasSub filePath p) then none
      else
        match parsed.ast with
        | some prog =>
          let errors := astErrs prog parsed
          if errors.length > 0 then some errors else none
        | none => none

/-- Per-file body of `runChecks` (commit-check-core.js lines 3384-3409): a
file whose parse produced nothing is skipped outright (`if (!parsed)
continue`); otherwise the five evaluators run and their non-null violation
lists are concatenated. -/
def processStagedFile
    (rule1AstErrs : JProgram → List Handler → List Violation)
    (rule2AstErrs : JProgram → ParsedFile → List Violation)
    (filePath : Text) (parsed? : Option ParsedFile) (diff : Text)
    (handlers : List Handler) : List Violation :=
  match parsed? with
  | none => []
  | some parsed =>
    (checkRule1 rule1AstErrs parsed diff handlers).getD [] ++
    (checkRule2 rule2AstErrs filePath parsed diff).getD [] ++
    (checkRule3 parsed).getD [] ++
    (checkRule4 parsed).getD [] ++
    (checkRule5 parsed diff).getD []

/-- Rule 1 can push violations only inside its `if (ast && ...)` block, so a
tree-less file always yields `null`, for every handler list and every
instantiation of the per-handler analysis. -/
theorem rule1_none_of_no_ast
    (astErrs : JProgram → List Handler → List Violation) (parsed : ParsedFile)
    (diff : Text) (handlers : List Handler) (h : parsed.ast = none) :
    checkRule1 astErrs parsed diff handlers = none := by
  simp [checkRule1, h, configRuleEnabled]

/-- Rule 2 can push violations only inside its `if (ast)` block, so a
tree-less file always yields `null`. -/
theorem rule2_none_of_no_ast
    (astErrs : JProgram → ParsedFile → List Violation) (filePath : Text)
    (parsed : ParsedFile) (diff : Text) (h : parsed.ast = none) :
    checkRule2 astErrs filePath parsed diff = none := by
  simp [checkRule2, h, configRuleEnabled]

/-- Rule 3 returns `null` outright for a tree-less file. -/
theorem rule3_none_of_no_ast (parsed : ParsedFile) (h : parsed.ast = none) :
    checkRule3 parsed = none := by
  simp [checkRule3, h, configRuleEnabled]

/-- C2 counterexample: a Vue file whose script region failed to parse
(`tree = null`, as `parseVueFile` produces) still receives a rule-4
violation through the text path, so the file is not silently skipped. -/
theorem c2_counterexample :
    (ParsedFile.ast ⟨"vue".data, none, "<div v-for=\x22i in items\x22></div>".data,
      "<template><div v-for=\x22i in items\x22></div></template>".data⟩ = none) ∧
    checkRule4 ⟨"vue".data, none, "<div v-for=\x22i in items\x22></div>".data,
      "<template><div v-for=\x22i in items\x22></div></template>".data⟩ =
      some [⟨4⟩] := by
  constructor
  · rfl
  · decide

/-- C2 (amended): a file whose parse returned nothing (JS/TS syntax errors)
is skipped by the per-file loop — no evaluator runs and no violation or
error is recorded — and on a tree-less parsed file (a Vue file whose script
failed to parse, or an HTML file) rules 1, 2 and 3 report nothing; rules 4
and 5, however, can still report violations through their text fallbacks,
so such a file is not entirely silent. -/
theorem c2_unparsable_files (r1 : JProgram → List Handler → List Violation)
    (r2 : JProgram → ParsedFile → List Violation) (filePath : Text)
    (diff : Text) (handlers : List Handler) :
    (processStagedFile r1 r2 filePath none diff handlers = []) ∧
    (∀ parsed : ParsedFile, parsed.ast = none →
      checkRule1 r1 parsed diff handlers = none ∧
      checkRule2 r2 filePath parsed diff = none ∧
      checkRule3 parsed = none) :=
  ⟨rfl, fun parsed h =>
    ⟨rule1_none_of_no_ast r1 parsed diff handlers h,
     rule2_none_of_no_ast r2 filePath parsed diff h,
     rule3_none_of_no_ast parsed h⟩⟩

/-- Witness for `c2_unparsable_files` at a concrete tree-less Vue file. -/
theorem c2_unparsable_files_witness :
    processStagedFile (fun _ _ => []) (fun _ _ => []) "a.vue".data none [] [] = [] ∧
    checkRule3 ⟨"vue".data, none, [], "const x =".data⟩ = none :=
  ⟨(c2_unparsable_files (fun _ _ => []) (fun _ _ => []) "a.vue".data [] []).1,
   ((c2_unparsable_files (fun _ _ => []) (fun _ _ => []) "a.vue".data [] []).2
     ⟨"vue".data, none, [], "const x =".data⟩ rfl).2.2⟩

/-- C10: rules 1, 2 and 3 always return `null` on a parsed file with no
tree, for every instantiation of their tree-dependent bodies; rules 4 and 5
are the only evaluators that can emit for such a file, witnessed by a
tree-less HTML list file (rule 4) and a tree-less HTML input file
(rule 5). -/
theorem c10_treeless_rules (r1 : JProgram → List Handler → List Violation)
    (r2 : JProgram → ParsedFile → List Violation) (filePath diff : Text)
    (handlers : List Handler) :
    (∀ parsed : ParsedFile, parsed.ast = none →
      checkRule1 r1 parsed diff handlers = none ∧
      checkRule2 r2 filePath parsed diff = none ∧
      checkRule3 parsed = none) ∧
    (∃ parsed : ParsedFile, parsed.ast = none ∧ checkRule4 parsed ≠ none) ∧
    (∃ (parsed : ParsedFile) (d : Text), parsed.ast = none ∧
      checkRule5 parsed d ≠ none) :=
  ⟨fun parsed h =>
    ⟨rule1_none_of_no_ast r1 parsed diff handlers h,
     rule2_none_of_no_ast r2 filePath parsed diff h,
     rule3_none_of_no_ast parsed h⟩,
   ⟨⟨"html".data, none, [], "rows.forEach(r => draw(r));".data⟩,
     rfl, by decide⟩,
   ⟨⟨"html".data, none, [], "<input type=\x22text\x22>".data⟩, [],
     rfl, by decide⟩⟩

/-- Witness for `c10_treeless_rules` at a concrete tree-less HTML file. -/
theorem c10_treeless_rules_witness :
    checkRule1 (fun _ _ => []) ⟨"html".data, none, [], "x".data⟩ [] [] = none ∧
    checkRule2 (fun _ _ => []) "b.html".data ⟨"html".data, none, [], "x".data⟩ []
      = none :=
  ⟨((c10_treeless_rules (fun _ _ => []) (fun _ _ => []) "b.html".data [] []).1
      ⟨"html".data, none, [], "x".data⟩ rfl).1,
   ((c10_treeless_rules (fun _ _ => []) (fun _ _ => []) "b.html".data [] []).1
      ⟨"html".data, none, [], "x".data⟩ rfl).2.1⟩

/-- Result of resolving an action name to its `declareRequest` loading flag. -/
structure ActionLoadingBinding where
  actionName : Text
  loadingName : Text
deriving DecidableEq

/-- One declaration of a candidate action file, as seen by the two visitors
of `findDeclareRequestInfo` (lines 3004-3047): a variable declarator with
its initialiser, or an assignment to a member whose property is the given
name, in document order. -/
inductive JFileDecl where
  | varDecl (name : Text) (init : JExpr)
  | memberAssign (propName : Text) (rhs : JExpr)
  | otherDecl
deriving DecidableEq

/-- A candidate action file: raw text plus its declarations.  The
filesystem probing of `findDeclareRequestInfo` (namespace-import
resolution, conventional directories, and the glob fallback, lines
2941-2982) is modelled by passing the ordered, deduplicated candidate list
explicitly. -/
structure DeclFile where
  raw : Text
  decls : List JFileDecl

/-- Does a declaration bind `actionName` to
`declareRequest(<string literal>, ...)` (lines 3005-3046)?  Returns the
literal first argument when it does. -/
def declMatch (actionName : Text) : JFileDecl → Option Text
  | .varDecl name (.call (.ident fn) args) =>
    if name == actionName && fn == "declareRequest".data then
      match args.toList.head? with
      | some (.strL l) => some l
      | _ => none
    else none
  | .memberAssign prop (.call (.ident fn) args) =>
    if prop == actionName && fn == "declareRequest".data then
      match args.toList.head? with
      | some (.strL l) => some l
      | _ => none
    else none
  | _ => none

/-- First matching declaration of a file (`path.stop()` on the first hit). -/
def searchFileDecls (actionName : Text) : List JFileDecl →
    Option ActionLoadingBinding
  | [] => none
  | d :: ds =>
    match declMatch actionName d with
    | some l => some ⟨actionName, l⟩
    | none => searchFileDecls actionName ds

/-- File loop of `findDeclareRequestInfo` (lines 2985-3056): skip files
whose raw text lacks the action name or `declareRequest`, otherwise search
the declarations; the first file with a match wins. -/
def findInfoInFiles (actionName : Text) : List DeclFile →
    Option ActionLoadingBinding
  | [] => none
  | f :: fs =>
    if hasSub f.raw actionName && hasSub f.raw "declareRequest".data then
      match searchFileDecls actionName f.decls with
      | some b => some b
      | none => findInfoInFiles actionName fs
    else findInfoInFiles actionName fs

/-- `findDeclareRequestInfo` (lines 2937-3062): `null` for an empty action
name, otherwise the first binding found in the candidate files, whatever
the literal loading name is. -/
def findDeclareRequestInfo (files : List DeclFile) (actionName : Text) :
    Option ActionLoadingBinding :=
  if actionName == [] then none
  else findInfoInFiles actionName files

/-- `findDeclareRequestLoading` (lines 3072-3082): the strict resolver,
returning a binding only when the resolved literal is exactly `loading`. -/
def findDeclareRequestLoading (files : List DeclFile) (actionName : Text) :
    Option ActionLoadingBinding :=
  match findDeclareRequestInfo files actionName with
  | some info => if info.loadingName == "loading".data then some info else none
  | none => none

/-- C9: the strict resolver returns a binding only with loading name
exactly `loading`; when the loose resolver finds a binding with any other
literal the strict resolver returns `null`; and when resolution fails
entirely both resolvers return `null` (they are total functions — no
error is raised). -/
theorem c9_resolver_strictness (files : List DeclFile) (actionName : Text) :
    (∀ b, findDeclareRequestLoading files actionName = some b →
      b.loadingName = "loading".data) ∧
    (∀ info, findDeclareRequestInfo files actionName = some info →
      info.loadingName ≠ "loading".data →
      findDeclareRequestLoading files actionName = none) ∧
    (findDeclareRequestInfo files actionName = none →
      findDeclareRequestLoading files actionName = none) := by
  refine ⟨?_, ?_, ?_⟩
  · intro b hb
    unfold findDeclareRequestLoading at hb
    cases hinfo : findDeclareRequestInfo files actionName with
    | none => rw [hinfo] at hb; exact absurd hb (by simp)
    | some info =>
      rw [hinfo] at hb
      by_cases hl : info.loadingName == "loading".data
      · simp [hl] at hb
        rw [← hb]
        simpa using hl
      · simp [hl] at hb
  · intro info hinfo hne
    unfold findDeclareRequestLoading
    rw [hinfo]
    have : (info.loadingName == "loading".data) = false := by
      simpa using hne
    simp [this]
  · intro hnone
    unfold findDeclareRequestLoading
    rw [hnone]

/-- Witness for `c9_resolver_strictness`: a candidate file declaring
`GetListAction = declareRequest('pageLoading', ...)` resolves loosely to
`pageLoading` but strictly to `null`. -/
theorem c9_resolver_strictness_witness :
    findDeclareRequestInfo
      [⟨"export const GetListAction = declareRequest(<pageLoading>)".data,
        [.varDecl "GetListAction".data (.call (.ident "declareRequest".data)
          (JExprs.ofList [.strL "pageLoading".data]))]⟩]
      "GetListAction".data =
      some ⟨"GetListAction".data, "pageLoading".data⟩ ∧
    findDeclareRequestLoading
      [⟨"export const GetListAction = declareRequest(<pageLoading>)".data,
        [.varDecl "GetListAction".data (.call (.ident "declareRequest".data)
          (JExprs.ofList [.strL "pageLoading".data]))]⟩]
      "GetListAction".data = none := by
  refine ⟨by decide, ?_⟩
  exact (c9_resolver_strictness _ _).2.1
    ⟨"GetListAction".data, "pageLoading".data⟩ (by decide) (by decide)
